import Mathlib

/-!
Verification of the CollectionSchedule route-optimization logic of the
circulapp backend: a shallow embedding of `optimizeRoute`,
`calculateEstimatedDuration`, the pre-save validation hooks, the
`optimize-route` HTTP action's response summary, and the recurring-schedule
expansion helper `createRecurringSchedules`, together with proofs of the
stated properties.

Numbers held in JavaScript `Number` fields (coordinates, weights) are
modelled as rationals; the real-valued distance `Math.sqrt(...)` is modelled
with `Real.sqrt`.  Because `Real.sqrt` is strictly monotone on nonnegative
arguments, the greedy selection loop is proved equal to a computable variant
that compares squared distances, which is used to evaluate concrete runs.
-/

namespace Circulapp

/-- Coordinates of a route point (`routePointSchema.coordinates`):
`lat` and `lng` are `Number` fields, modelled as rationals. -/
structure Coordinates where
  lat : ℚ
  lng : ℚ
deriving DecidableEq, Repr, Inhabited

/-- A point of `CollectionSchedule.route` (`routePointSchema`).  Besides the
coordinates it carries an `address` (a required field of the schema), so two
distinct points may share identical coordinates. -/
structure RoutePoint where
  address : String
  coordinates : Coordinates
deriving DecidableEq, Repr, Inhabited

/-- Valid coordinates per the schema bounds (`lat` in [-90, 90], `lng` in
[-180, 180]). -/
def ValidCoordinates (c : Coordinates) : Prop :=
  -90 ≤ c.lat ∧ c.lat ≤ 90 ∧ -180 ≤ c.lng ∧ c.lng ≤ 180

instance (c : Coordinates) : Decidable (ValidCoordinates c) := by
  unfold ValidCoordinates; infer_instance

/-- The squared planar distance `((Δlat)·111)² + ((Δlng)·85)²`; the code
compares `Math.sqrt` of this quantity. -/
def distanceSq (a b : Coordinates) : ℚ :=
  ((b.lat - a.lat) * 111) ^ 2 + ((b.lng - a.lng) * 85) ^ 2

/-- The planar distance used by `optimizeRoute` and
`calculateEstimatedDuration`:
`Math.sqrt(((lat2-lat1)*111)^2 + ((lng2-lng1)*85)^2)`. -/
noncomputable def distance (a b : Coordinates) : ℝ :=
  Real.sqrt ((((b.lat : ℝ) - (a.lat : ℝ)) * 111) ^ 2 +
    (((b.lng : ℝ) - (a.lng : ℝ)) * 85) ^ 2)

/-- The body of the `remaining.forEach((point, index) => ...)` scan of
`optimizeRoute`: `index` is the index of the head of the list still to scan,
`nearestIndex` and `shortestDistance` are the running accumulator
(`shortestDistance` starts at `Infinity`, modelled by `⊤`). -/
noncomputable def findNearestGo (current : Coordinates) :
    Nat → Nat → WithTop ℝ → List RoutePoint → Nat
  | _, nearestIndex, _, [] => nearestIndex
  | index, nearestIndex, shortestDistance, point :: rest =>
    if (distance current point.coordinates : WithTop ℝ) < shortestDistance then
      findNearestGo current (index + 1) index
        (distance current point.coordinates) rest
    else
      findNearestGo current (index + 1) nearestIndex shortestDistance rest

/-- One greedy selection step of `optimizeRoute`: scan `remaining` from the
point `current` with `nearestIndex = 0`, `shortestDistance = Infinity`. -/
noncomputable def findNearest (current : Coordinates)
    (remaining : List RoutePoint) : Nat :=
  findNearestGo current 0 0 ⊤ remaining

/-- Computable variant of `findNearestGo` comparing squared distances;
proved to coincide with `findNearestGo` in `findNearest_eq_sq`. -/
def findNearestSqGo (current : Coordinates) :
    Nat → Nat → WithTop ℚ → List RoutePoint → Nat
  | _, nearestIndex, _, [] => nearestIndex
  | index, nearestIndex, shortestDistance, point :: rest =>
    if (distanceSq current point.coordinates : WithTop ℚ) < shortestDistance then
      findNearestSqGo current (index + 1) index
        (distanceSq current point.coordinates) rest
    else
      findNearestSqGo current (index + 1) nearestIndex shortestDistance rest

/-- Computable variant of `findNearest` comparing squared distances. -/
def findNearestSq (current : Coordinates) (remaining : List RoutePoint) : Nat :=
  findNearestSqGo current 0 0 ⊤ remaining

/-- Lift a running squared distance to the corresponding real distance. -/
noncomputable def mapSqrt (s : WithTop ℚ) : WithTop ℝ :=
  s.map (fun q : ℚ => Real.sqrt (q : ℝ))

/-- The squared distance from `current` to the `j`-th entry of `l`. -/
def dQ (current : Coordinates) (l : List RoutePoint) (j : Nat) : ℚ :=
  distanceSq current ((l.getD j default).coordinates)

/-- The `while (remaining.length > 0)` loop of `optimizeRoute`: from the
current last point, select the nearest remaining point (`findNearest`),
append it (`optimized.push(remaining[nearestIndex])`) and remove it from
`remaining` (`remaining.splice(nearestIndex, 1)`).  The loop runs one
iteration per remaining point; the `fuel` argument (instantiated with the
initial length of `remaining`) makes the recursion structural. -/
noncomputable def nnLoop : Nat → Coordinates → List RoutePoint → List RoutePoint
  | 0, _, _ => []
  | fuel + 1, current, remaining =>
    if remaining.isEmpty then []
    else
      let nearestIndex := findNearest current remaining
      let next := remaining.getD nearestIndex default
      next :: nnLoop fuel next.coordinates (remaining.eraseIdx nearestIndex)

/-- The method `collectionScheduleSchema.methods.optimizeRoute`: returns the route
unchanged when `route.length <= 2`, otherwise seeds the output with the
first point and greedily appends the nearest remaining point. -/
noncomputable def optimizeRoute (route : List RoutePoint) : List RoutePoint :=
  if route.length ≤ 2 then route
  else
    match route with
    | [] => route
    | p :: rest => p :: nnLoop rest.length p.coordinates rest

/-- Computable variant of `nnLoop` comparing squared distances. -/
def nnLoopSq : Nat → Coordinates → List RoutePoint → List RoutePoint
  | 0, _, _ => []
  | fuel + 1, current, remaining =>
    if remaining.isEmpty then []
    else
      let nearestIndex := findNearestSq current remaining
      let next := remaining.getD nearestIndex default
      next :: nnLoopSq fuel next.coordinates (remaining.eraseIdx nearestIndex)

/-- Computable variant of `optimizeRoute` comparing squared distances;
proved to coincide with `optimizeRoute` in `optimizeRoute_eq_sq`. -/
def optimizeRouteSq (route : List RoutePoint) : List RoutePoint :=
  if route.length ≤ 2 then route
  else
    match route with
    | [] => route
    | p :: rest => p :: nnLoopSq rest.length p.coordinates rest

/-- The `for (let i = 1; i < this.route.length; i++)` accumulation of
`calculateEstimatedDuration`, threading the previous point. -/
noncomputable def totalDistanceGo : Coordinates → List RoutePoint → ℝ
  | _, [] => 0
  | prev, curr :: rest =>
    distance prev curr.coordinates + totalDistanceGo curr.coordinates rest

/-- The method `collectionScheduleSchema.methods.calculateEstimatedDuration`:
`(routePoints * baseTimePerPoint) + (totalDistance * travelTimePerKm)` with
`baseTimePerPoint = 15` minutes and `travelTimePerKm = 5` minutes per km,
where `totalDistance` sums the consecutive-point planar distances of the
route in its current order. -/
noncomputable def calculateEstimatedDuration (route : List RoutePoint) : ℝ :=
  let baseTimePerPoint : ℝ := 15
  let travelTimePerKm : ℝ := 5
  let routePoints := route.length
  let totalDistance :=
    match route with
    | [] => 0
    | p :: rest => totalDistanceGo p.coordinates rest
  routePoints * baseTimePerPoint + totalDistance * travelTimePerKm

/-- The total path length of a route in its current order: the sum of the
distances between consecutive points. -/
noncomputable def pathDistance (route : List RoutePoint) : ℝ :=
  (List.zipWith (fun a b => distance a.coordinates b.coordinates)
    route route.tail).sum

/-- The time-slot strings of a `CollectionSchedule` (`timeSlot.start` and
`timeSlot.end` in `HH:MM` format; the `end` field is renamed `endTime`
because `end` is reserved in Lean). -/
structure TimeSlot where
  start : String
  endTime : String
deriving DecidableEq, Repr

/-- Model of `split(':')` followed by `parseInt(parts[0]) * 60 + parseInt(parts[1])`,
as in the `pre('save')` hook.  On the `HH:MM` strings admitted by the
schema's format validator both parses succeed; a failed `parseInt` (`NaN`
in JavaScript) is modelled as `0`. -/
def parseTimeMinutes (s : String) : Int :=
  let parts := s.splitOn ":"
  ((parts.getD 0 "").toInt?.getD 0) * 60 + ((parts.getD 1 "").toInt?.getD 0)

/-- The hook `collectionScheduleSchema.pre('save')`: rejects the write with a
descriptive error when the start of the time slot is not strictly before
its end, or when the scheduled date is before `now` (`new Date()`). -/
def collectionSchedulePreSave (timeSlot : TimeSlot)
    (scheduledDate now : Int) : Except String Unit :=
  let start := parseTimeMinutes timeSlot.start
  let stop := parseTimeMinutes timeSlot.endTime
  if start ≥ stop then
    Except.error "La hora de inicio debe ser anterior a la hora de fin"
  else if scheduledDate < now then
    Except.error "La fecha programada no puede ser en el pasado"
  else
    Except.ok ()

/-- The `validationCriteria` subdocument of a Material (`minWeight`, `maxWeight`). -/
structure ValidationCriteria where
  minWeight : ℚ
  maxWeight : ℚ
deriving DecidableEq, Repr

/-- The hook `materialSchema.pre('save')`: rejects the write when
`validationCriteria.minWeight >= validationCriteria.maxWeight`. -/
def materialPreSave (vc : ValidationCriteria) : Except String Unit :=
  if vc.minWeight ≥ vc.maxWeight then
    Except.error "El peso mínimo debe ser menor al peso máximo"
  else
    Except.ok ()

/-- The JSON summary returned by
`router.patch('/collection-schedule/:id/optimize-route')`. -/
structure OptimizeRouteSummary where
  originalPoints : Nat
  optimizedPoints : Nat
  estimatedSavings : String
deriving DecidableEq, Repr

/-- The summary computation of the optimize-route action: it captures the
original route, replaces the schedule's route by `optimizeRoute()`, and
reports `estimatedSavings` as the percentage reduction in point count:
`Math.round(((originalPoints - optimizedPoints) / originalPoints) * 100)`
when the original route is nonempty, and the literal `'0%'` otherwise. -/
noncomputable def optimizeRouteSummary (route : List RoutePoint) :
    OptimizeRouteSummary :=
  let originalRoute := route
  let optimized := optimizeRoute route
  { originalPoints := originalRoute.length
    optimizedPoints := optimized.length
    estimatedSavings :=
      if originalRoute.length > 0 then
        toString (round ((((originalRoute.length : ℚ) - (optimized.length : ℚ))
          / (originalRoute.length : ℚ)) * 100)) ++ "%"
      else "0%" }

/-- A schedule document as created by `createRecurringSchedules`: only the
fields relevant to the recurrence are modelled (`scheduledDate`, and the
`recurring.parentSchedule` back-reference); all other fields are copied
verbatim from the base schedule.  Dates are modelled as integer day
numbers. -/
structure NewScheduleDoc where
  scheduledDate : Int
  parentSchedule : Nat
deriving DecidableEq, Repr

/-- The `while (currentDate <= finalDate)` loop of
`createRecurringSchedules`: each iteration advances `currentDate` by
`interval` days and, if the advanced date is still within `endDate`, pushes
a copy of the base schedule dated at it and carrying
`recurring.parentSchedule = baseSchedule._id`.  The loop itself is not
guaranteed to terminate (nothing validates `interval`), so it is embedded
with a `fuel` bound: `none` means the fuel ran out with the loop condition
still true, i.e. the loop runs longer than `fuel` iterations. -/
def recurLoop (baseId : Nat) (interval finalDate : Int) :
    Nat → Int → Option (List NewScheduleDoc)
  | 0, currentDate => if currentDate ≤ finalDate then none else some []
  | fuel + 1, currentDate =>
    if currentDate ≤ finalDate then
      (recurLoop baseId interval finalDate fuel (currentDate + interval)).map
        (fun rest =>
          if currentDate + interval ≤ finalDate then
            ⟨currentDate + interval, baseId⟩ :: rest
          else rest)
    else
      some []

/-- The helper `createRecurringSchedules(baseSchedule, recurringConfig)` run with fuel
`(endDate - scheduledDate).toNat + 1`, which is enough for the loop to
finish whenever `interval ≥ 1` (each iteration advances `currentDate` by at
least one day). -/
def createRecurringSchedules (baseId : Nat) (scheduledDate : Int)
    (interval endDate : Int) : Option (List NewScheduleDoc) :=
  recurLoop baseId interval endDate
    ((endDate - scheduledDate).toNat + 1) scheduledDate

/-- The list produced by the recurrence loop when `interval ≥ 1`, defined by
well-founded recursion on the remaining day span (no fuel needed). -/
def recurList (baseId : Nat) (interval finalDate : Int) (hint : 1 ≤ interval)
    (currentDate : Int) : List NewScheduleDoc :=
  if h : currentDate ≤ finalDate then
    if h2 : currentDate + interval ≤ finalDate then
      ⟨currentDate + interval, baseId⟩
        :: recurList baseId interval finalDate hint (currentDate + interval)
    else []
  else []
termination_by (finalDate + 1 - currentDate).toNat
decreasing_by omega

/-- Worked example point A(0, 0) (coordinates written as (lat, lng)). -/
def pointA : RoutePoint := ⟨"A", ⟨0, 0⟩⟩

/-- Worked example point B(0, 1). -/
def pointB : RoutePoint := ⟨"B", ⟨0, 1⟩⟩

/-- Worked example point C(0, 10). -/
def pointC : RoutePoint := ⟨"C", ⟨0, 10⟩⟩

/-- Worked example point D(0, 2). -/
def pointD : RoutePoint := ⟨"D", ⟨0, 2⟩⟩

/-- Worked tie-break example point E(0, -1): at the same distance from
A(0, 0) as B(0, 1). -/
def pointE : RoutePoint := ⟨"E", ⟨0, -1⟩⟩

/-- Three distinct route points sharing identical coordinates. -/
def zPoint1 : RoutePoint := ⟨"Z1", ⟨-34, -58⟩⟩

/-- Second point at the same coordinates as `zPoint1`. -/
def zPoint2 : RoutePoint := ⟨"Z2", ⟨-34, -58⟩⟩

/-- Third point at the same coordinates as `zPoint1`. -/
def zPoint3 : RoutePoint := ⟨"Z3", ⟨-34, -58⟩⟩

theorem distanceSq_nonneg (a b : Coordinates) : 0 ≤ distanceSq a b := by
  unfold distanceSq; positivity

theorem distance_eq_sqrt_distanceSq (a b : Coordinates) :
    distance a b = Real.sqrt ((distanceSq a b : ℚ) : ℝ) := by
  unfold distance distanceSq
  congr 1
  push_cast
  ring

theorem findNearestGo_eq_sq (current : Coordinates) (l : List RoutePoint) :
    ∀ (index nearestIndex : Nat) (s : WithTop ℚ),
      (∀ q : ℚ, s = (q : WithTop ℚ) → 0 ≤ q) →
      findNearestGo current index nearestIndex (mapSqrt s) l =
        findNearestSqGo current index nearestIndex s l := by
  induction l with
  | nil => intro idx ni s _; rfl
  | cons p rest ih =>
    intro idx ni s hs
    have hd : distance current p.coordinates
        = Real.sqrt ((distanceSq current p.coordinates : ℚ) : ℝ) :=
      distance_eq_sqrt_distanceSq _ _
    have hnn : ∀ q : ℚ,
        ((distanceSq current p.coordinates : ℚ) : WithTop ℚ) = (q : WithTop ℚ) →
        0 ≤ q := by
      intro q hq
      rw [WithTop.coe_eq_coe] at hq
      rw [← hq]
      exact distanceSq_nonneg _ _
    cases s using WithTop.recTopCoe with
    | top =>
      simp only [findNearestGo, findNearestSqGo, mapSqrt, WithTop.map_top]
      rw [if_pos (WithTop.coe_lt_top _), if_pos (WithTop.coe_lt_top _), hd]
      have h2 := ih (idx + 1) idx
        ((distanceSq current p.coordinates : ℚ) : WithTop ℚ) hnn
      simpa [mapSqrt, WithTop.map_coe] using h2
    | coe q =>
      have hq : 0 ≤ q := hs q rfl
      simp only [findNearestGo, findNearestSqGo, mapSqrt, WithTop.map_coe]
      have hiff : ((distance current p.coordinates : ℝ) : WithTop ℝ)
            < ((Real.sqrt (q : ℝ) : ℝ) : WithTop ℝ) ↔
          ((distanceSq current p.coordinates : ℚ) : WithTop ℚ) < (q : WithTop ℚ) := by
        rw [WithTop.coe_lt_coe, WithTop.coe_lt_coe, hd,
          Real.sqrt_lt_sqrt_iff (by exact_mod_cast distanceSq_nonneg current p.coordinates),
          Rat.cast_lt]
      rw [if_congr hiff rfl rfl]
      split_ifs with h
      · rw [hd]
        have h2 := ih (idx + 1) idx
          ((distanceSq current p.coordinates : ℚ) : WithTop ℚ) hnn
        simpa [mapSqrt, WithTop.map_coe] using h2
      · have h2 := ih (idx + 1) ni (q : WithTop ℚ) (by
          intro r hr
          rw [WithTop.coe_eq_coe] at hr
          rw [← hr]
          exact hq)
        simpa [mapSqrt, WithTop.map_coe] using h2

theorem findNearest_eq_sq (current : Coordinates) (l : List RoutePoint) :
    findNearest current l = findNearestSq current l := by
  have h := findNearestGo_eq_sq current l 0 0 ⊤ (by intro q hq; simp at hq)
  simpa [findNearest, findNearestSq, mapSqrt, WithTop.map_top] using h

theorem dQ_cons_zero (current : Coordinates) (p : RoutePoint)
    (rest : List RoutePoint) :
    dQ current (p :: rest) 0 = distanceSq current p.coordinates := rfl

theorem dQ_cons_succ (current : Coordinates) (p : RoutePoint)
    (rest : List RoutePoint) (j : Nat) :
    dQ current (p :: rest) (j + 1) = dQ current rest j := rfl

/-- Behaviour of the selection scan: either no element beats the incoming
`shortestDistance` and the incoming `nearestIndex` survives, or the scan
returns the first index attaining the minimum (strictly below
`shortestDistance`, strictly below every earlier element, and at most every
element). -/
theorem findNearestSqGo_spec (current : Coordinates) (l : List RoutePoint) :
    ∀ (index nearestIndex : Nat) (s : WithTop ℚ),
      (findNearestSqGo current index nearestIndex s l = nearestIndex ∧
        ∀ j < l.length, s ≤ (dQ current l j : WithTop ℚ)) ∨
      (∃ j < l.length,
        findNearestSqGo current index nearestIndex s l = index + j ∧
        (dQ current l j : WithTop ℚ) < s ∧
        (∀ k < j, dQ current l j < dQ current l k) ∧
        (∀ k < l.length, dQ current l j ≤ dQ current l k)) := by
  induction l with
  | nil =>
    intro idx ni s
    left
    exact ⟨rfl, by intro j hj; simp at hj⟩
  | cons p rest ih =>
    intro idx ni s
    by_cases hlt : (distanceSq current p.coordinates : WithTop ℚ) < s
    · have heq : findNearestSqGo current idx ni s (p :: rest)
          = findNearestSqGo current (idx + 1) idx
            ((distanceSq current p.coordinates : ℚ) : WithTop ℚ) rest := by
        simp only [findNearestSqGo, if_pos hlt]
      rcases ih (idx + 1) idx ((distanceSq current p.coordinates : ℚ) : WithTop ℚ)
        with ⟨hres, hall⟩ | ⟨j, hj, hres, hlt2, hfirst, hmin⟩
      · right
        refine ⟨0, by simp, ?_, ?_, ?_, ?_⟩
        · rw [heq, hres]; omega
        · simpa [dQ_cons_zero] using hlt
        · intro k hk; omega
        · intro k hk
          match k, hk with
          | 0, _ => simp [dQ_cons_zero]
          | k + 1, hk =>
            rw [dQ_cons_zero, dQ_cons_succ]
            exact WithTop.coe_le_coe.mp
              (hall k (by simp only [List.length_cons] at hk; omega))
      · right
        refine ⟨j + 1, by simpa using hj, ?_, ?_, ?_, ?_⟩
        · rw [heq, hres]; omega
        · rw [dQ_cons_succ]
          exact lt_trans hlt2 hlt
        · intro k hk
          match k with
          | 0 =>
            rw [dQ_cons_succ, dQ_cons_zero]
            exact WithTop.coe_lt_coe.mp hlt2
          | k + 1 =>
            rw [dQ_cons_succ, dQ_cons_succ]
            exact hfirst k (by omega)
        · intro k hk
          match k with
          | 0 =>
            rw [dQ_cons_succ, dQ_cons_zero]
            exact le_of_lt (WithTop.coe_lt_coe.mp hlt2)
          | k + 1 =>
            rw [dQ_cons_succ, dQ_cons_succ]
            exact hmin k (by simpa using hk)
    · have heq : findNearestSqGo current idx ni s (p :: rest)
          = findNearestSqGo current (idx + 1) ni s rest := by
        simp only [findNearestSqGo, if_neg hlt]
      rcases ih (idx + 1) ni s
        with ⟨hres, hall⟩ | ⟨j, hj, hres, hlt2, hfirst, hmin⟩
      · left
        refine ⟨heq.trans hres, ?_⟩
        intro j hj
        match j with
        | 0 => rw [dQ_cons_zero]; exact not_lt.mp hlt
        | j + 1 => rw [dQ_cons_succ]; exact hall j (by simpa using hj)
      · right
        have hjd : (dQ current rest j : WithTop ℚ)
            < (distanceSq current p.coordinates : WithTop ℚ) :=
          lt_of_lt_of_le hlt2 (not_lt.mp hlt)
        refine ⟨j + 1, by simpa using hj, ?_, ?_, ?_, ?_⟩
        · rw [heq, hres]; omega
        · rw [dQ_cons_succ]; exact hlt2
        · intro k hk
          match k with
          | 0 =>
            rw [dQ_cons_succ, dQ_cons_zero]
            exact WithTop.coe_lt_coe.mp hjd
          | k + 1 =>
            rw [dQ_cons_succ, dQ_cons_succ]
            exact hfirst k (by omega)
        · intro k hk
          match k with
          | 0 =>
            rw [dQ_cons_succ, dQ_cons_zero]
            exact le_of_lt (WithTop.coe_lt_coe.mp hjd)
          | k + 1 =>
            rw [dQ_cons_succ, dQ_cons_succ]
            exact hmin k (by simpa using hk)

/-- For a nonempty list, `findNearestSq` returns an in-range index of a
minimum-distance element, and every earlier element is strictly farther. -/
theorem findNearestSq_spec (current : Coordinates) (l : List RoutePoint)
    (h : l ≠ []) :
    findNearestSq current l < l.length ∧
    (∀ k < l.length, dQ current l (findNearestSq current l) ≤ dQ current l k) ∧
    (∀ k < findNearestSq current l,
      dQ current l (findNearestSq current l) < dQ current l k) := by
  rcases findNearestSqGo_spec current l 0 0 ⊤
    with ⟨_, hall⟩ | ⟨j, hj, hres, _, hfirst, hmin⟩
  · exfalso
    exact WithTop.not_top_le_coe _ (hall 0 (List.length_pos.mpr h))
  · have hr : findNearestSq current l = j := by
      rw [findNearestSq, hres]; omega
    rw [hr]
    exact ⟨hj, hmin, hfirst⟩

theorem nnLoop_eq_sq (fuel : Nat) :
    ∀ (current : Coordinates) (l : List RoutePoint),
      nnLoop fuel current l = nnLoopSq fuel current l := by
  induction fuel with
  | zero => intro c l; rfl
  | succ n ih =>
    intro c l
    simp only [nnLoop, nnLoopSq, findNearest_eq_sq, ih]

theorem optimizeRoute_eq_sq (route : List RoutePoint) :
    optimizeRoute route = optimizeRouteSq route := by
  cases route with
  | nil => rfl
  | cons p rest => simp only [optimizeRoute, optimizeRouteSq, nnLoop_eq_sq]

theorem perm_getD_cons_eraseIdx {α : Type} [Inhabited α] :
    ∀ (l : List α) (i : Nat), i < l.length →
      l.Perm (l.getD i default :: l.eraseIdx i) := by
  intro l
  induction l with
  | nil => intro i hi; simp at hi
  | cons a t ih =>
    intro i hi
    match i, hi with
    | 0, _ => exact List.Perm.refl _
    | i + 1, hi =>
      rw [List.getD_cons_succ]
      have h1 := (ih i (by simp only [List.length_cons] at hi; omega)).cons a
      exact h1.trans (List.Perm.swap _ _ _)

theorem nnLoopSq_perm (fuel : Nat) :
    ∀ (current : Coordinates) (l : List RoutePoint), l.length ≤ fuel →
      (nnLoopSq fuel current l).Perm l := by
  induction fuel with
  | zero =>
    intro c l hl
    have : l = [] := List.eq_nil_of_length_eq_zero (by omega)
    simp [this, nnLoopSq]
  | succ n ih =>
    intro c l hl
    rw [nnLoopSq]
    split
    · rename_i h
      have : l = [] := List.isEmpty_iff.mp h
      simp [this]
    · rename_i h
      have hne : l ≠ [] := fun hnil => h (by simp [hnil])
      have hidx := (findNearestSq_spec c l hne).1
      have h1 : (l.eraseIdx (findNearestSq c l)).length ≤ n := by
        rw [List.length_eraseIdx]
        simp only [hidx, if_pos]
        omega
      have h2 := ih (l.getD (findNearestSq c l) default).coordinates
        (l.eraseIdx (findNearestSq c l)) h1
      exact (h2.cons _).trans (perm_getD_cons_eraseIdx l _ hidx).symm

theorem optimizeRouteSq_perm (route : List RoutePoint) :
    (optimizeRouteSq route).Perm route := by
  rw [optimizeRouteSq.eq_def]
  split
  · exact List.Perm.refl _
  · cases route with
    | nil => exact List.Perm.refl _
    | cons p rest =>
      exact (nnLoopSq_perm rest.length p.coordinates rest (le_refl _)).cons p

theorem optimizeRoute_perm (route : List RoutePoint) :
    (optimizeRoute route).Perm route := by
  rw [optimizeRoute_eq_sq]
  exact optimizeRouteSq_perm route

theorem optimizeRoute_length (route : List RoutePoint) :
    (optimizeRoute route).length = route.length :=
  (optimizeRoute_perm route).length_eq

theorem optimizeRoute_head (route : List RoutePoint) :
    (optimizeRoute route).head? = route.head? := by
  rw [optimizeRoute.eq_def]
  split
  · rfl
  · cases route with
    | nil => rfl
    | cons p rest => rfl

theorem totalDistanceGo_eq_pathDistance :
    ∀ (rest : List RoutePoint) (p : RoutePoint),
      totalDistanceGo p.coordinates rest = pathDistance (p :: rest) := by
  intro rest
  induction rest with
  | nil => intro p; simp [totalDistanceGo, pathDistance]
  | cons q rest ih =>
    intro p
    simp only [totalDistanceGo, pathDistance, List.tail_cons,
      List.zipWith_cons_cons, List.sum_cons] at ih ⊢
    rw [ih q]

theorem calculateEstimatedDuration_eq (route : List RoutePoint) :
    calculateEstimatedDuration route
      = (route.length : ℝ) * 15 + pathDistance route * 5 := by
  cases route with
  | nil => simp [calculateEstimatedDuration, pathDistance]
  | cons p rest =>
    simp only [calculateEstimatedDuration]
    rw [totalDistanceGo_eq_pathDistance]

theorem interval_le_mul (interval : Int) (hint : 1 ≤ interval) (k : Nat)
    (hk : 1 ≤ k) : interval ≤ (k : Int) * interval := by
  have h0 : (0 : Int) ≤ ((k : Int) - 1) * interval :=
    mul_nonneg (by omega) (by omega)
  nlinarith [h0]

theorem recurLoop_eq_recurList (baseId : Nat) (interval finalDate : Int)
    (hint : 1 ≤ interval) :
    ∀ (fuel : Nat) (currentDate : Int),
      (finalDate + 1 - currentDate).toNat ≤ fuel →
      recurLoop baseId interval finalDate fuel currentDate =
        some (recurList baseId interval finalDate hint currentDate) := by
  intro fuel
  induction fuel with
  | zero =>
    intro cur hc
    have h : ¬ cur ≤ finalDate := by omega
    rw [recurLoop, recurList]
    simp [h]
  | succ n ih =>
    intro cur hc
    rw [recurLoop]
    by_cases h : cur ≤ finalDate
    · rw [if_pos h, ih (cur + interval) (by omega), Option.map_some']
      conv_rhs => rw [recurList]
      by_cases h2 : cur + interval ≤ finalDate
      · simp [h, h2]
      · simp only [if_neg h2, dif_pos h, dif_neg h2, Option.some_inj]
        rw [recurList]
        simp [h2]
    · rw [if_neg h, recurList]
      simp [h]

theorem recurList_mem (baseId : Nat) (interval finalDate : Int)
    (hint : 1 ≤ interval) :
    ∀ (currentDate : Int) (s : NewScheduleDoc),
      s ∈ recurList baseId interval finalDate hint currentDate ↔
        (s.parentSchedule = baseId ∧
          ∃ k : Nat, 1 ≤ k ∧
            s.scheduledDate = currentDate + (k : Int) * interval ∧
            s.scheduledDate ≤ finalDate) := by
  intro cur
  induction cur using recurList.induct baseId interval finalDate hint with
  | case1 cur h h2 ih =>
    intro s
    rw [recurList, dif_pos h, dif_pos h2]
    simp only [List.mem_cons, ih]
    constructor
    · rintro (rfl | ⟨hp, k, hk, hdate, hle⟩)
      · exact ⟨rfl, 1, le_refl 1, by push_cast; ring, h2⟩
      · refine ⟨hp, k + 1, by omega, ?_, hle⟩
        rw [hdate]; push_cast; ring
    · rintro ⟨hp, k, hk, hdate, hle⟩
      cases k with
      | zero => omega
      | succ k =>
        cases k with
        | zero =>
          left
          have hd2 : s.scheduledDate = cur + interval := by
            rw [hdate]; push_cast; ring
          cases s with
          | mk d p =>
            simp only [NewScheduleDoc.mk.injEq]
            exact ⟨hd2, hp⟩
        | succ k =>
          right
          refine ⟨hp, k + 1, by omega, ?_, hle⟩
          rw [hdate]; push_cast; ring
  | case2 cur h h2 =>
    intro s
    rw [recurList, dif_pos h, dif_neg h2]
    simp only [List.not_mem_nil, false_iff]
    rintro ⟨-, k, hk, hdate, hle⟩
    have hik := interval_le_mul interval hint k hk
    omega
  | case3 cur h =>
    intro s
    rw [recurList, dif_neg h]
    simp only [List.not_mem_nil, false_iff]
    rintro ⟨-, k, hk, hdate, hle⟩
    have hik := interval_le_mul interval hint k hk
    omega

theorem recurList_dates_nodup (baseId : Nat) (interval finalDate : Int)
    (hint : 1 ≤ interval) :
    ∀ currentDate : Int,
      ((recurList baseId interval finalDate hint currentDate).map
        (fun s => s.scheduledDate)).Nodup := by
  intro cur
  induction cur using recurList.induct baseId interval finalDate hint with
  | case1 cur h h2 ih =>
    rw [recurList, dif_pos h, dif_pos h2]
    simp only [List.map_cons, List.nodup_cons]
    refine ⟨?_, ih⟩
    simp only [List.mem_map, not_exists, not_and]
    intro s hs
    rw [recurList_mem] at hs
    obtain ⟨-, k, hk, hdate, -⟩ := hs
    have hik := interval_le_mul interval hint k hk
    omega
  | case2 cur h h2 =>
    rw [recurList, dif_pos h, dif_neg h2]
    simp
  | case3 cur h =>
    rw [recurList, dif_neg h]
    simp

theorem recurLoop_none_of_nonpos (baseId : Nat) (interval finalDate : Int)
    (hint : interval ≤ 0) :
    ∀ (fuel : Nat) (currentDate : Int), currentDate ≤ finalDate →
      recurLoop baseId interval finalDate fuel currentDate = none := by
  intro fuel
  induction fuel with
  | zero =>
    intro cur hc
    rw [recurLoop]
    simp [hc]
  | succ n ih =>
    intro cur hc
    rw [recurLoop, if_pos hc, ih (cur + interval) (by omega)]
    rfl

theorem distance_le_distance_iff (a b c d : Coordinates) :
    distance a b ≤ distance c d ↔ distanceSq a b ≤ distanceSq c d := by
  rw [distance_eq_sqrt_distanceSq, distance_eq_sqrt_distanceSq,
    Real.sqrt_le_sqrt_iff (by exact_mod_cast distanceSq_nonneg c d),
    Rat.cast_le]

theorem distance_lt_distance_iff (a b c d : Coordinates) :
    distance a b < distance c d ↔ distanceSq a b < distanceSq c d := by
  rw [distance_eq_sqrt_distanceSq, distance_eq_sqrt_distanceSq,
    Real.sqrt_lt_sqrt_iff (by exact_mod_cast distanceSq_nonneg a b),
    Rat.cast_lt]

theorem nnLoopSq_succ (fuel : Nat) (current : Coordinates)
    (remaining : List RoutePoint) :
    nnLoopSq (fuel + 1) current remaining =
      if remaining.isEmpty then []
      else
        (remaining.getD (findNearestSq current remaining) default)
          :: nnLoopSq fuel
            (remaining.getD (findNearestSq current remaining) default).coordinates
            (remaining.eraseIdx (findNearestSq current remaining)) := rfl

theorem optimizeRouteSq_example :
    optimizeRouteSq [pointA, pointB, pointC, pointD]
      = [pointA, pointB, pointD, pointC] := by
  have h1 : findNearestSq pointA.coordinates [pointB, pointC, pointD] = 0 := by
    simp only [findNearestSq, findNearestSqGo, WithTop.coe_lt_top, if_true,
      WithTop.coe_lt_coe]
    norm_num [distanceSq, pointA, pointB, pointC, pointD]
  have h2 : findNearestSq pointB.coordinates [pointC, pointD] = 1 := by
    simp only [findNearestSq, findNearestSqGo, WithTop.coe_lt_top, if_true,
      WithTop.coe_lt_coe]
    norm_num [distanceSq, pointB, pointC, pointD]
  have h3 : findNearestSq pointD.coordinates [pointC] = 0 := by
    simp only [findNearestSq, findNearestSqGo, WithTop.coe_lt_top, if_true,
      WithTop.coe_lt_coe]
  have s1 : nnLoopSq 3 pointA.coordinates [pointB, pointC, pointD]
      = pointB :: nnLoopSq 2 pointB.coordinates [pointC, pointD] := by
    rw [show (3 : Nat) = 2 + 1 from rfl, nnLoopSq_succ, h1]
    simp [List.eraseIdx]
  have s2 : nnLoopSq 2 pointB.coordinates [pointC, pointD]
      = pointD :: nnLoopSq 1 pointD.coordinates [pointC] := by
    rw [show (2 : Nat) = 1 + 1 from rfl, nnLoopSq_succ, h2]
    simp [List.eraseIdx]
  have s3 : nnLoopSq 1 pointD.coordinates [pointC]
      = pointC :: nnLoopSq 0 pointC.coordinates [] := by
    rw [show (1 : Nat) = 0 + 1 from rfl, nnLoopSq_succ, h3]
    simp [List.eraseIdx]
  have e0 : optimizeRouteSq [pointA, pointB, pointC, pointD]
      = pointA :: nnLoopSq 3 pointA.coordinates [pointB, pointC, pointD] := by
    simp [optimizeRouteSq]
  rw [e0, s1, s2, s3]
  rfl

/-- Claim C1: for every route of length at least 2 with valid coordinates,
the sequence returned by `optimizeRoute` is a permutation of the input
route: same multiset of points, with no point added, duplicated, or
dropped. -/
theorem claim1_optimizeRoute_perm (route : List RoutePoint)
    (hlen : 2 ≤ route.length)
    (hvalid : ∀ p ∈ route, ValidCoordinates p.coordinates) :
    (optimizeRoute route).Perm route :=
  optimizeRoute_perm route

theorem claim1_witness :
    2 ≤ ([pointA, pointB, pointC, pointD] : List RoutePoint).length ∧
    (∀ p ∈ ([pointA, pointB, pointC, pointD] : List RoutePoint),
      ValidCoordinates p.coordinates) ∧
    (optimizeRoute [pointA, pointB, pointC, pointD]).Perm
      [pointA, pointB, pointC, pointD] :=
  ⟨by norm_num,
   by norm_num [pointA, pointB, pointC, pointD, ValidCoordinates],
   claim1_optimizeRoute_perm [pointA, pointB, pointC, pointD] (by norm_num)
     (by norm_num [pointA, pointB, pointC, pointD, ValidCoordinates])⟩

/-- Claim C2: `optimizeRoute` implements the nearest-neighbour heuristic
with the planar distance `sqrt((Δlat × 111)² + (Δlng × 85)²)`; in
particular, on the input A(0,0), B(0,1), C(0,10), D(0,2) in that order it
returns the order A, B, D, C. -/
theorem claim2_optimizeRoute_nearest_neighbor_example :
    (∀ a b : Coordinates, distance a b
        = Real.sqrt ((((b.lat : ℝ) - (a.lat : ℝ)) * 111) ^ 2 +
            (((b.lng : ℝ) - (a.lng : ℝ)) * 85) ^ 2)) ∧
    optimizeRoute [pointA, pointB, pointC, pointD]
      = [pointA, pointB, pointD, pointC] :=
  ⟨fun _ _ => rfl, by rw [optimizeRoute_eq_sq]; exact optimizeRouteSq_example⟩

/-- Claim C3: in every greedy selection step of `optimizeRoute`, the chosen
remaining point is at minimum distance from the current last point, and is
strictly closer than every remaining point occurring earlier in the scan
order — so on ties the point occurring earliest in input order wins (the
selection, and hence `optimizeRoute`, is a deterministic function of the
input). -/
theorem claim3_findNearest_first_min (current : Coordinates)
    (remaining : List RoutePoint) (h : remaining ≠ []) :
    findNearest current remaining < remaining.length ∧
    (∀ j < remaining.length,
      distance current
          ((remaining.getD (findNearest current remaining) default).coordinates)
        ≤ distance current ((remaining.getD j default).coordinates)) ∧
    (∀ j < findNearest current remaining,
      distance current
          ((remaining.getD (findNearest current remaining) default).coordinates)
        < distance current ((remaining.getD j default).coordinates)) := by
  have hsq := findNearestSq_spec current remaining h
  rw [findNearest_eq_sq]
  refine ⟨hsq.1, ?_, ?_⟩
  · intro j hj
    rw [distance_le_distance_iff]
    exact hsq.2.1 j hj
  · intro j hj
    rw [distance_lt_distance_iff]
    exact hsq.2.2 j hj

theorem claim3_witness :
    ([pointB, pointE, pointC] : List RoutePoint) ≠ [] ∧
    (findNearest pointA.coordinates [pointB, pointE, pointC]
        < ([pointB, pointE, pointC] : List RoutePoint).length ∧
      (∀ j < ([pointB, pointE, pointC] : List RoutePoint).length,
        distance pointA.coordinates
            (([pointB, pointE, pointC].getD
              (findNearest pointA.coordinates [pointB, pointE, pointC])
              default).coordinates)
          ≤ distance pointA.coordinates
              (([pointB, pointE, pointC].getD j default).coordinates)) ∧
      (∀ j < findNearest pointA.coordinates [pointB, pointE, pointC],
        distance pointA.coordinates
            (([pointB, pointE, pointC].getD
              (findNearest pointA.coordinates [pointB, pointE, pointC])
              default).coordinates)
          < distance pointA.coordinates
              (([pointB, pointE, pointC].getD j default).coordinates))) :=
  ⟨by decide,
   claim3_findNearest_first_min pointA.coordinates [pointB, pointE, pointC]
     (by decide)⟩

/-- Claim C4: for every non-empty input route, the first point of the
sequence returned by `optimizeRoute` equals the first point of the input
route. -/
theorem claim4_optimizeRoute_head (route : List RoutePoint)
    (h : route ≠ []) :
    (optimizeRoute route).head? = route.head? :=
  optimizeRoute_head route

theorem claim4_witness :
    ([pointA, pointB, pointC] : List RoutePoint) ≠ [] ∧
    (optimizeRoute [pointA, pointB, pointC]).head?
      = ([pointA, pointB, pointC] : List RoutePoint).head? :=
  ⟨by decide, claim4_optimizeRoute_head [pointA, pointB, pointC] (by decide)⟩

/-- Claim C5: for every route of length 0 or 1, `optimizeRoute` returns an
identical sequence (same elements, same order), as a no-op rather than an
error. -/
theorem claim5_optimizeRoute_short_identity (route : List RoutePoint)
    (h : route.length ≤ 1) :
    optimizeRoute route = route := by
  rw [optimizeRoute.eq_def, if_pos (by omega)]

theorem claim5_witness :
    ([pointA] : List RoutePoint).length ≤ 1 ∧
    optimizeRoute [pointA] = [pointA] :=
  ⟨by decide, claim5_optimizeRoute_short_identity [pointA] (by decide)⟩

/-- Claim C6: `calculateEstimatedDuration` returns
`(number of points × 15) + (sum of consecutive-point distances × 5)`
minutes, the distances taken along the current route order with the
formula `sqrt((Δlat × 111)² + (Δlng × 85)²)`; in particular on a 3-point
route whose points all share the same coordinates it returns exactly 45. -/
theorem claim6_calculateEstimatedDuration :
    (∀ route : List RoutePoint,
      calculateEstimatedDuration route
        = (route.length : ℝ) * 15 + pathDistance route * 5) ∧
    calculateEstimatedDuration [zPoint1, zPoint2, zPoint3] = 45 := by
  refine ⟨calculateEstimatedDuration_eq, ?_⟩
  rw [calculateEstimatedDuration_eq]
  norm_num [pathDistance, distance, zPoint1, zPoint2, zPoint3,
    Real.sqrt_zero]

/-- Claim C7: for `interval ≥ 1`, recurring expansion from a base schedule
creates exactly one follow-up for each `interval`-day step after the base
date, up to and including the last step that does not exceed `endDate`,
each carrying a `parentSchedule` reference to the base, with the base
itself never duplicated (all created dates are strictly after the base);
in particular, base day 0 with interval 7 and endDate day 20 yields
follow-ups at days 7 and 14 only. -/
theorem claim7_createRecurringSchedules :
    (∀ (baseId : Nat) (scheduledDate interval endDate : Int),
      1 ≤ interval →
      ∃ L, createRecurringSchedules baseId scheduledDate interval endDate
          = some L ∧
        (∀ s ∈ L, s.parentSchedule = baseId ∧
          scheduledDate < s.scheduledDate) ∧
        (∀ s ∈ L, ∃ k : Nat, 1 ≤ k ∧
          s.scheduledDate = scheduledDate + (k : Int) * interval ∧
          s.scheduledDate ≤ endDate) ∧
        (∀ k : Nat, 1 ≤ k →
          scheduledDate + (k : Int) * interval ≤ endDate →
          ∃ s ∈ L, s.scheduledDate = scheduledDate + (k : Int) * interval) ∧
        (L.map (fun s => s.scheduledDate)).Nodup) ∧
    createRecurringSchedules 1 0 7 20
      = some [⟨7, 1⟩, ⟨14, 1⟩] := by
  constructor
  · intro baseId sd interval ed hint
    refine ⟨recurList baseId interval ed hint sd, ?_, ?_, ?_, ?_, ?_⟩
    · unfold createRecurringSchedules
      exact recurLoop_eq_recurList baseId interval ed hint _ sd (by omega)
    · intro s hs
      rw [recurList_mem] at hs
      obtain ⟨hp, k, hk, hdate, hle⟩ := hs
      refine ⟨hp, ?_⟩
      have := interval_le_mul interval hint k hk
      omega
    · intro s hs
      rw [recurList_mem] at hs
      exact hs.2
    · intro k hk hle
      refine ⟨⟨sd + (k : Int) * interval, baseId⟩, ?_, rfl⟩
      rw [recurList_mem]
      exact ⟨rfl, k, hk, rfl, hle⟩
    · exact recurList_dates_nodup baseId interval ed hint sd
  · rfl

theorem claim7_witness :
    (1 : Int) ≤ 3 ∧
    (∃ L, createRecurringSchedules 2 5 3 12 = some L ∧
      (∀ s ∈ L, s.parentSchedule = 2 ∧ (5 : Int) < s.scheduledDate) ∧
      (∀ s ∈ L, ∃ k : Nat, 1 ≤ k ∧
        s.scheduledDate = 5 + (k : Int) * 3 ∧ s.scheduledDate ≤ 12) ∧
      (∀ k : Nat, 1 ≤ k → (5 : Int) + (k : Int) * 3 ≤ 12 →
        ∃ s ∈ L, s.scheduledDate = 5 + (k : Int) * 3) ∧
      (L.map (fun s => s.scheduledDate)).Nodup) :=
  ⟨by norm_num, claim7_createRecurringSchedules.1 2 5 3 12 (by norm_num)⟩

/-- Claim C8: for every schedule route, the `estimatedSavings` field of the
optimize-route action summary is always the string `"0%"`, because the
percentage is computed from the difference of the original and optimized
route lengths and `optimizeRoute` never changes the number of points. -/
theorem claim8_estimatedSavings_zero (route : List RoutePoint) :
    (optimizeRouteSummary route).estimatedSavings = "0%" := by
  show (if route.length > 0 then
      toString (round ((((route.length : ℚ) - ((optimizeRoute route).length : ℚ))
        / (route.length : ℚ)) * 100)) ++ "%"
    else "0%") = "0%"
  rw [optimizeRoute_length]
  split_ifs with h
  · have hz : (((route.length : ℚ) - (route.length : ℚ))
        / (route.length : ℚ)) * 100 = 0 := by
      rw [sub_self, zero_div, zero_mul]
    rw [hz, round_zero]
    rfl
  · rfl

/-- Claim C9: saving a CollectionSchedule fails with a descriptive error
exactly when the time slot start is not strictly before its end or the
scheduled date is in the past; saving a Material fails in the structurally
identical way exactly when `minWeight ≥ maxWeight`.  The `Except` result
models the rejected write: no partial application occurs. -/
theorem claim9_preSave_validation :
    (∀ (ts : TimeSlot) (scheduledDate now : Int),
      ((∃ msg, collectionSchedulePreSave ts scheduledDate now
          = Except.error msg) ↔
        (parseTimeMinutes ts.endTime ≤ parseTimeMinutes ts.start ∨
          scheduledDate < now))) ∧
    (∀ vc : ValidationCriteria,
      ((∃ msg, materialPreSave vc = Except.error msg) ↔
        vc.maxWeight ≤ vc.minWeight)) := by
  constructor
  · intro ts d now
    simp only [collectionSchedulePreSave]
    split_ifs with h1 h2
    · exact iff_of_true ⟨_, rfl⟩ (Or.inl h1)
    · exact iff_of_true ⟨_, rfl⟩ (Or.inr h2)
    · refine iff_of_false ?_ ?_
      · rintro ⟨msg, hmsg⟩
        exact hmsg.elim
      · rintro (hc | hc)
        · exact h1 hc
        · exact h2 hc
  · intro vc
    simp only [materialPreSave]
    split_ifs with h1
    · exact iff_of_true ⟨_, rfl⟩ h1
    · refine iff_of_false ?_ h1
      rintro ⟨msg, hmsg⟩
      exact hmsg.elim

/-- Claim C10: the recurrence expansion loop terminates (with finitely many
schedules) for every integer `interval ≥ 1` and any base/end dates; and
this unchecked precondition is necessary: for `interval ≤ 0` with `endDate`
not before the base date, the loop never finishes (it exhausts any fuel
bound). -/
theorem claim10_recurLoop_termination :
    (∀ (baseId : Nat) (scheduledDate interval endDate : Int),
      1 ≤ interval →
      ∀ fuel : Nat, (endDate + 1 - scheduledDate).toNat ≤ fuel →
        (recurLoop baseId interval endDate fuel scheduledDate).isSome
          = true) ∧
    (∀ (baseId : Nat) (scheduledDate interval endDate : Int),
      interval ≤ 0 → scheduledDate ≤ endDate →
      ∀ fuel : Nat,
        recurLoop baseId interval endDate fuel scheduledDate = none) := by
  constructor
  · intro baseId sd interval ed hint fuel hf
    rw [recurLoop_eq_recurList baseId interval ed hint fuel sd hf]
    rfl
  · intro baseId sd interval ed hint hle fuel
    exact recurLoop_none_of_nonpos baseId interval ed hint fuel sd hle

theorem claim10_witness :
    ((1 : Int) ≤ 7 ∧ ((20 : Int) + 1 - 0).toNat ≤ 21 ∧
      (recurLoop 1 7 20 21 0).isSome = true) ∧
    ((0 : Int) ≤ 0 ∧ (0 : Int) ≤ 20 ∧
      recurLoop 1 0 20 5 0 = none) :=
  ⟨⟨by decide, by decide,
      claim10_recurLoop_termination.1 1 0 7 20 (by decide) 21 (by decide)⟩,
   ⟨by decide, by decide,
      claim10_recurLoop_termination.2 1 0 0 20 (by decide) (by decide) 5⟩⟩

end Circulapp
